import Mathlib

/-!
Verification of the typed API client layer of the domo-rust-sdk repository:
a shallow embedding, in Lean, of its data model, serde (de)serialization
behavior, HTTP response handling, token acquisition, pagination loops, and
the CLI-level flows for account creation and page-collection update, with
theorems settling the specification claims about them.
-/

namespace Domo

/-! ## JSON values

A JSON document, as produced by serde_json after parsing. Object fields are
kept as an association list in document order.
-/

inductive Json where
  | null
  | bool (b : Bool)
  | num (n : Int)
  | str (s : String)
  | arr (elems : List Json)
  | obj (fields : List (String × Json))

/-- Field lookup on a parsed JSON object, as serde_json Map::get. -/
def jLookup (fs : List (String × Json)) (k : String) : Option Json :=
  (fs.find? (fun kv => kv.1 == k)).map (fun kv => kv.2)

/-- Decode a JSON value as a string, as serde does for a String field. -/
def decStr : Json → Option String
  | .str s => some s
  | _ => none

/-- Decode a JSON value as a boolean, as serde does for a bool field. -/
def decBool : Json → Option Bool
  | .bool b => some b
  | _ => none

/-- Decode a JSON number as an unsigned integer strictly below the given
bound; serde rejects negatives and out-of-range values for uN fields. -/
def decNatLt (bound : Nat) : Json → Option Nat
  | .num n => if 0 ≤ n ∧ n < (bound : Int) then some n.toNat else none
  | _ => none

/-- Serde behavior for a present `Option` value: an explicit null decodes
to `none`; any other value must decode by `dec`. -/
def decNull (dec : Json → Option α) : Json → Option (Option α)
  | .null => some none
  | j => (dec j).map some

/-- Serde behavior for an `Option` field: a missing key and an explicit
null both decode to `none`; any other value must decode by `dec`. -/
def decOptField (dec : Json → Option α) (fs : List (String × Json)) (k : String) :
    Option (Option α) :=
  match jLookup fs k with
  | none => some none
  | some j => decNull dec j

/-- Serde behavior for a field of a struct with the serde default attribute:
a missing key yields the default value; a present key must decode. -/
def decDefField (dec : Json → Option α) (dflt : α) (fs : List (String × Json))
    (k : String) : Option α :=
  match jLookup fs k with
  | none => some dflt
  | some j => dec j

/-- Serde behavior for a required field (struct without serde default):
the key must be present and must decode. -/
def decReqField (dec : Json → Option α) (fs : List (String × Json)) (k : String) :
    Option α :=
  match jLookup fs k with
  | none => none
  | some j => dec j

/-- Decode a JSON array elementwise; fails if any element fails. -/
def decodeJList (dec : Json → Option α) : List Json → Option (List α)
  | [] => some []
  | j :: js =>
    match dec j, decodeJList dec js with
    | some a, some rest => some (a :: rest)
    | _, _ => none

/-- Decode a JSON object as a map with values decoded by `dec`, keeping
entries in document order (a HashMap of the Rust model). -/
def decodeKVList (dec : Json → Option β) :
    List (String × Json) → Option (List (String × β))
  | [] => some []
  | kv :: kvs =>
    match dec kv.2, decodeKVList dec kvs with
    | some b, some rest => some ((kv.1, b) :: rest)
    | _, _ => none

/-- Encode an optional value, with `none` serialized as JSON null, exactly
as serde serializes an Option field without skip attributes. -/
def encOpt (enc : α → Json) : Option α → Json
  | none => .null
  | some a => enc a

/-! ## The structured API error

Embeds `PubAPIError` from src/public/mod.rs: status is u16 and required,
message is required, the rest are optional; wire names are camelCase.
The struct does not carry the serde default attribute, so the required
fields must be present for the decode to succeed.
-/

structure PubAPIError where
  status : Nat
  status_reason : Option String
  message : String
  path : Option String
  toe : Option String
deriving DecidableEq, Repr

def decodePubAPIError : Json → Option PubAPIError
  | .obj fs => do
    let st ← decReqField (decNatLt 65536) fs "status"
    let sr ← decOptField decStr fs "statusReason"
    let msg ← decReqField decStr fs "message"
    let p ← decOptField decStr fs "path"
    let t ← decOptField decStr fs "toe"
    some ⟨st, sr, msg, p, t⟩
  | _ => none

/-! ## HTTP responses and the two error-handling disciplines

A response as seen by the client after the transport succeeded: a numeric
status and a parsed JSON body. The surf-based modules (accounts, datasets,
streams, users, groups, buzz, workflow, activity) check
`response.status().is_success()` (2xx) and on failure decode the body as a
`PubAPIError`; a body that fails to decode surfaces the serde decode error
itself, which carries no HTTP status. The page module instead uses the
blocking client with `error_for_status()` (fails on 400..=599 exposing only
the status) and never decodes the error body.
-/

structure Response where
  status : Nat
  body : Json

/-- Failure values a client method can produce, after the transport layer:
the decoded structured API error, a serde body-decode failure (which in the
source is a serde_json error value, carrying no HTTP status), or the
status-only error produced by `error_for_status` in the page module. -/
inductive ClientError where
  | api (e : PubAPIError)
  | decode
  | httpStatus (status : Nat)
deriving DecidableEq, Repr

/-- The HTTP status the failure value itself exposes to its consumer. -/
def errStatus : ClientError → Option Nat
  | .api e => some e.status
  | .decode => none
  | .httpStatus s => some s

/-- The error message the failure value itself exposes to its consumer. -/
def errMessage : ClientError → Option String
  | .api e => some e.message
  | .decode => none
  | .httpStatus _ => none

/-- Response handling shared by every surf-based client method: on a 2xx
status decode the success body, otherwise decode the body as the structured
`PubAPIError`; either decode failure propagates as the serde error. -/
def surfHandle (dec : Json → Option α) (resp : Response) : Except ClientError α :=
  if 200 ≤ resp.status ∧ resp.status < 300 then
    match dec resp.body with
    | some a => .ok a
    | none => .error .decode
  else
    match decodePubAPIError resp.body with
    | some e => .error (.api e)
    | none => .error .decode

/-- Response handling of the page-module methods, which call
`error_for_status()` on the blocking client: statuses 400..=599 fail with a
status-only error and the body is never decoded; otherwise the success body
is decoded. -/
def reqwestHandle (dec : Json → Option α) (resp : Response) : Except ClientError α :=
  if 400 ≤ resp.status ∧ resp.status ≤ 599 then
    .error (.httpStatus resp.status)
  else
    match dec resp.body with
    | some a => .ok a
    | none => .error .decode

/-! ## Account data model

Embeds the structs of src/public/account/mod.rs. Every field is an Option;
each struct carries the serde default attribute and camelCase renaming.
HashMap fields are modeled as association lists. The field `account_type`
is renamed to `type` on the wire and `templates` to `_templates`.
-/

structure Property where
  name : Option String
  prompt : Option String
  regex : Option String
  required : Option Bool
deriving DecidableEq, Repr

structure AccountTemplate where
  name : Option String
  title : Option String
  content_type : Option String
  method : Option String
  properties : Option (List Property)
deriving DecidableEq, Repr

structure AccountType where
  id : Option String
  name : Option String
  properties : Option (List (String × String))
  templates : Option (List (String × AccountTemplate))
deriving DecidableEq, Repr

structure Account where
  id : Option String
  name : Option String
  valid : Option Bool
  account_type : Option AccountType
deriving DecidableEq, Repr

/-- Account::new from the source: every field unset. -/
def Account.new : Account :=
  { id := none, name := none, valid := none, account_type := none }

/-- Account::template from the source: the placeholder instance handed to
the interactive editor. -/
def Account.template : Account :=
  { id := some "0", name := some "Account Name", valid := some true,
    account_type := none }

def encodeProperty (p : Property) : Json :=
  .obj [("name", encOpt .str p.name), ("prompt", encOpt .str p.prompt),
        ("regex", encOpt .str p.regex), ("required", encOpt .bool p.required)]

def decodeProperty : Json → Option Property
  | .obj fs => do
    let n ← decOptField decStr fs "name"
    let pr ← decOptField decStr fs "prompt"
    let rg ← decOptField decStr fs "regex"
    let rq ← decOptField decBool fs "required"
    some ⟨n, pr, rg, rq⟩
  | _ => none

def encodeTemplate (t : AccountTemplate) : Json :=
  .obj [("name", encOpt .str t.name), ("title", encOpt .str t.title),
        ("contentType", encOpt .str t.content_type),
        ("method", encOpt .str t.method),
        ("properties", encOpt (fun ps => .arr (ps.map encodeProperty)) t.properties)]

def decodeTemplate : Json → Option AccountTemplate
  | .obj fs => do
    let n ← decOptField decStr fs "name"
    let ti ← decOptField decStr fs "title"
    let ct ← decOptField decStr fs "contentType"
    let me ← decOptField decStr fs "method"
    let ps ← decOptField
      (fun j => match j with
        | .arr xs => decodeJList decodeProperty xs
        | _ => none) fs "properties"
    some ⟨n, ti, ct, me, ps⟩
  | _ => none

def encodeStrMap (m : List (String × String)) : Json :=
  .obj (m.map (fun kv => (kv.1, .str kv.2)))

def decodeStrMap : Json → Option (List (String × String))
  | .obj fs => decodeKVList decStr fs
  | _ => none

def encodeTemplateMap (m : List (String × AccountTemplate)) : Json :=
  .obj (m.map (fun kv => (kv.1, encodeTemplate kv.2)))

def decodeTemplateMap : Json → Option (List (String × AccountTemplate))
  | .obj fs => decodeKVList decodeTemplate fs
  | _ => none

def encodeAccountType (t : AccountType) : Json :=
  .obj [("id", encOpt .str t.id), ("name", encOpt .str t.name),
        ("properties", encOpt encodeStrMap t.properties),
        ("_templates", encOpt encodeTemplateMap t.templates)]

def decodeAccountType : Json → Option AccountType
  | .obj fs => do
    let i ← decOptField decStr fs "id"
    let n ← decOptField decStr fs "name"
    let ps ← decOptField decodeStrMap fs "properties"
    let ts ← decOptField decodeTemplateMap fs "_templates"
    some ⟨i, n, ps, ts⟩
  | _ => none

def encodeAccount (a : Account) : Json :=
  .obj [("id", encOpt .str a.id), ("name", encOpt .str a.name),
        ("valid", encOpt .bool a.valid),
        ("type", encOpt encodeAccountType a.account_type)]

def decodeAccount : Json → Option Account
  | .obj fs => do
    let i ← decOptField decStr fs "id"
    let n ← decOptField decStr fs "name"
    let v ← decOptField decBool fs "valid"
    let t ← decOptField decodeAccountType fs "type"
    some ⟨i, n, v, t⟩
  | _ => none

/-! ## Dataset Owner

Embeds `Owner` from src/public/dataset/mod.rs: unlike the rest of the data
model its `id` field is a plain u32, not an Option, under the serde default
attribute, so a missing id deserializes to 0.
-/

structure Owner where
  id : Nat
  name : Option String
deriving DecidableEq, Repr

def encodeOwner (o : Owner) : Json :=
  .obj [("id", .num o.id), ("name", encOpt .str o.name)]

def decodeOwner : Json → Option Owner
  | .obj fs => do
    let i ← decDefField (decNatLt 4294967296) 0 fs "id"
    let n ← decOptField decStr fs "name"
    some ⟨i, n⟩
  | _ => none

/-! ## Serialization round-trip lemmas -/

theorem decodeProperty_encode (p : Property) :
    decodeProperty (encodeProperty p) = some p := by
  obtain ⟨n, pr, rg, rq⟩ := p
  cases n <;> cases pr <;> cases rg <;> cases rq <;> rfl

theorem decodeJList_encode (dec : Json → Option α) (enc : α → Json) (l : List α)
    (h : ∀ a ∈ l, dec (enc a) = some a) :
    decodeJList dec (l.map enc) = some l := by
  induction l with
  | nil => rfl
  | cons a rest ih =>
    have ha := h a (List.mem_cons_self a rest)
    have hrest := ih (fun x hx => h x (List.mem_cons_of_mem a hx))
    simp [decodeJList, ha, hrest]

theorem decodeKVList_encode (dec : Json → Option β) (enc : β → Json)
    (l : List (String × β)) (h : ∀ kv ∈ l, dec (enc kv.2) = some kv.2) :
    decodeKVList dec (l.map (fun kv => (kv.1, enc kv.2))) = some l := by
  induction l with
  | nil => rfl
  | cons kv rest ih =>
    have ha := h kv (List.mem_cons_self kv rest)
    have hrest := ih (fun x hx => h x (List.mem_cons_of_mem kv hx))
    simp [decodeKVList, ha, hrest]

theorem decodeTemplate_encode (t : AccountTemplate) :
    decodeTemplate (encodeTemplate t) = some t := by
  obtain ⟨n, ti, ct, me, ps⟩ := t
  have hps : ∀ ps : List Property,
      decodeJList decodeProperty (ps.map encodeProperty) = some ps :=
    fun ps => decodeJList_encode _ _ _ (fun a _ => decodeProperty_encode a)
  cases n <;> cases ti <;> cases ct <;> cases me <;> cases ps <;>
    simp [decodeTemplate, encodeTemplate, decOptField, jLookup, encOpt,
      List.find?, decStr, decNull, hps]

theorem decodeStrMap_encode (m : List (String × String)) :
    decodeStrMap (encodeStrMap m) = some m :=
  decodeKVList_encode _ _ _ (fun _ _ => rfl)

theorem decodeTemplateMap_encode (m : List (String × AccountTemplate)) :
    decodeTemplateMap (encodeTemplateMap m) = some m :=
  decodeKVList_encode _ _ _ (fun kv _ => decodeTemplate_encode kv.2)

theorem decNull_null (dec : Json → Option α) : decNull dec Json.null = some none := rfl

theorem decNull_str (s : String) : decNull decStr (Json.str s) = some (some s) := rfl

theorem decNull_bool (b : Bool) : decNull decBool (Json.bool b) = some (some b) := rfl

theorem decNull_encodeStrMap (m : List (String × String)) :
    decNull decodeStrMap (encodeStrMap m) = some (some m) := by
  have h : decNull decodeStrMap (encodeStrMap m)
      = (decodeStrMap (encodeStrMap m)).map some := rfl
  rw [h, decodeStrMap_encode]
  rfl

theorem decNull_encodeTemplateMap (m : List (String × AccountTemplate)) :
    decNull decodeTemplateMap (encodeTemplateMap m) = some (some m) := by
  have h : decNull decodeTemplateMap (encodeTemplateMap m)
      = (decodeTemplateMap (encodeTemplateMap m)).map some := rfl
  rw [h, decodeTemplateMap_encode]
  rfl

theorem decodeAccountType_encode (t : AccountType) :
    decodeAccountType (encodeAccountType t) = some t := by
  obtain ⟨i, n, ps, ts⟩ := t
  cases i <;> cases n <;> cases ps <;> cases ts <;>
    simp [decodeAccountType, encodeAccountType, decOptField, jLookup, encOpt,
      List.find?, decNull_null, decNull_str, decNull_encodeStrMap,
      decNull_encodeTemplateMap]

theorem decNull_encodeAccountType (t : AccountType) :
    decNull decodeAccountType (encodeAccountType t) = some (some t) := by
  have h : decNull decodeAccountType (encodeAccountType t)
      = (decodeAccountType (encodeAccountType t)).map some := rfl
  rw [h, decodeAccountType_encode]
  rfl

theorem decodeAccount_encode (a : Account) :
    decodeAccount (encodeAccount a) = some a := by
  obtain ⟨i, n, v, t⟩ := a
  cases i <;> cases n <;> cases v <;> cases t <;>
    simp [decodeAccount, encodeAccount, decOptField, jLookup, encOpt,
      List.find?, decNull_null, decNull_str, decNull_bool,
      decNull_encodeAccountType]

theorem decodeOwner_encode (o : Owner) (h : o.id < 4294967296) :
    decodeOwner (encodeOwner o) = some o := by
  obtain ⟨i, n⟩ := o
  simp only [Owner.id] at h
  have h0 : (0 : Int) ≤ (i : Int) := Int.ofNat_nonneg i
  have h1 : (i : Int) < 4294967296 := by exact_mod_cast h
  have hd : decNatLt 4294967296 (Json.num i) = some i := by
    simp [decNatLt, h0, h1]
  cases n <;>
    simp [decodeOwner, encodeOwner, decDefField, decOptField, jLookup,
      List.find?, decNull_null, decNull_str, encOpt, hd]

/-! ## The list-all pagination loop

Embeds the loop shared verbatim by DataSetCommand::ListAll (src/dataset.rs),
StreamCommand::ListAll (src/stream.rs) and UserCommand::ListAll
(src/user.rs): starting at offset 0, call the paged list method with
limit Some 50 and offset Some off, set a flag when the returned page is
shorter than 50, append the page to the aggregate either way, add 50 to the
offset, and break when the flag was set. The offset variable is a u32
(`let mut offset = 0_u32`), so `offset += 50` is u32 arithmetic: in release
builds it wraps past u32::MAX, modeled here by the explicit mod 2^32 in
`nextOff` (debug builds would panic at that point instead). The model takes
the server as a pure function from offset to returned page, records every
issued (limit, offset) request pair, and carries fuel for the (in the
source, potentially nonterminating) loop; `none` means the fuel ran out.
-/

/-- The u32 wrapping advance of the loop offset: `offset += 50`. -/
def nextOff (off : Nat) : Nat := (off + 50) % 4294967296

def listAllAux (fetch : Nat → List α) : Nat → Nat → Option (List α × List (Nat × Nat))
  | 0, _ => none
  | fuel+1, off =>
    let ret := fetch off
    if ret.length < 50 then
      some (ret, [(50, off)])
    else
      match listAllAux fetch fuel (nextOff off) with
      | none => none
      | some (rest, reqs) => some (ret ++ rest, (50, off) :: reqs)

def listAll (fetch : Nat → List α) (fuel : Nat) : Option (List α × List (Nat × Nat)) :=
  listAllAux fetch fuel 0

/-- The request sequence the loop sends when it makes n calls starting at
the given offset: limit 50 every time, offsets advancing by the u32
wrapping step. -/
def expectedReqs (off : Nat) : Nat → List (Nat × Nat)
  | 0 => []
  | n+1 => (50, off) :: expectedReqs (nextOff off) n

/-- The aggregate the loop builds from n calls starting at the given
offset: the returned pages concatenated in arrival order. -/
def pageSeq (fetch : Nat → List α) (off : Nat) : Nat → List α
  | 0 => []
  | n+1 => fetch off ++ pageSeq fetch (nextOff off) n

/-- The offset reached after i wrapping advances from the given start. -/
def offIter (off : Nat) : Nat → Nat
  | 0 => off
  | i+1 => offIter (nextOff off) i

/-- A stub paged endpoint over a dataset of the given total size, serving
pages of at most 50 elements from the requested offset. -/
def stubFetch (total : Nat) : Nat → List Nat :=
  fun off => ((List.range total).drop off).take 50

/-- A stub endpoint whose first page is longer than the requested limit:
60 elements at offset 0, a single element at offset 50, nothing after. -/
def overFetch : Nat → List Nat :=
  fun off => if off = 0 then List.range 60 else if off = 50 then [777] else []

/-- A stub endpoint that serves full pages everywhere except at offset 4,
the first offset the u32 loop counter reaches after wrapping past
u32::MAX: 50 * 85899346 = 4294967300 = 2^32 + 4. -/
def wrapFetch : Nat → List Nat :=
  fun off => if off = 4 then [] else List.range 50

theorem offIter_eq :
    ∀ (i off : Nat), off < 4294967296 →
      offIter off i = (off + 50 * i) % 4294967296 := by
  intro i
  induction i with
  | zero =>
    intro off h
    simp [offIter, Nat.mod_eq_of_lt h]
  | succ j ih =>
    intro off h
    have hn : nextOff off < 4294967296 := Nat.mod_lt _ (by norm_num)
    have step : offIter off (j + 1) = offIter (nextOff off) j := rfl
    rw [step, ih (nextOff off) hn, nextOff, Nat.mod_add_mod]
    have harg : off + 50 + 50 * j = off + 50 * (j + 1) := by ring
    rw [harg]

theorem expectedReqs_length (off n : Nat) : (expectedReqs off n).length = n := by
  induction n generalizing off with
  | zero => rfl
  | succ n ih => simp [expectedReqs, ih]

theorem expectedReqs_getD (off n i : Nat) (h : i < n) :
    (expectedReqs off n).getD i (0, 0) = (50, offIter off i) := by
  induction n generalizing off i with
  | zero => omega
  | succ n ih =>
    cases i with
    | zero => simp [expectedReqs, offIter]
    | succ j =>
      have hj := ih (nextOff off) j (by omega)
      simpa [expectedReqs] using hj

/-- Every successful run of the loop makes at least one call, sends
limit 50 at the iterated wrapping offsets from its start, aggregates the
returned pages in arrival order, sees a page of length at least 50 on every
call but the last, and stops right after the first page shorter than 50. -/
theorem listAllAux_spec (fetch : Nat → List α) :
    ∀ (fuel off : Nat) (agg : List α) (reqs : List (Nat × Nat)),
      listAllAux fetch fuel off = some (agg, reqs) →
      reqs = expectedReqs off reqs.length ∧
      agg = pageSeq fetch off reqs.length ∧
      0 < reqs.length ∧
      (∀ i, i + 1 < reqs.length → 50 ≤ (fetch (offIter off i)).length) ∧
      (fetch (offIter off (reqs.length - 1))).length < 50 := by
  intro fuel
  induction fuel with
  | zero => intro off agg reqs h; simp [listAllAux] at h
  | succ fuel ih =>
    intro off agg reqs h
    simp only [listAllAux] at h
    by_cases hlt : (fetch off).length < 50
    · rw [if_pos hlt] at h
      simp only [Option.some.injEq, Prod.mk.injEq] at h
      obtain ⟨ha, hr⟩ := h
      subst ha
      subst hr
      refine ⟨rfl, by simp [pageSeq], by simp, ?_, by simpa [offIter] using hlt⟩
      intro i hi
      simp at hi
    · rw [if_neg hlt] at h
      cases hrec : listAllAux fetch fuel (nextOff off) with
      | none => rw [hrec] at h; simp at h
      | some pr =>
        obtain ⟨rest, reqs0⟩ := pr
        rw [hrec] at h
        simp only [Option.some.injEq, Prod.mk.injEq] at h
        obtain ⟨ha, hr⟩ := h
        subst ha
        subst hr
        obtain ⟨h1, h2, h3, h4, h5⟩ := ih (nextOff off) rest reqs0 hrec
        simp only [List.length_cons]
        refine ⟨?_, ?_, by omega, ?_, ?_⟩
        · rw [expectedReqs]
          exact congrArg (List.cons (50, off)) h1
        · rw [pageSeq]
          exact congrArg (fun l => fetch off ++ l) h2
        · intro i hi
          cases i with
          | zero => simpa [offIter] using Nat.le_of_not_lt hlt
          | succ j => exact h4 j (by omega)
        · have harg : reqs0.length + 1 - 1 = (reqs0.length - 1) + 1 := by omega
          rw [harg]
          exact h5

/-- A run of the loop can be predicted without evaluation: when the server
returns full pages at the first k iterated offsets and a short page at the
next one, the loop with enough fuel makes exactly k + 1 calls. -/
theorem listAllAux_run (fetch : Nat → List α) :
    ∀ (k off fuel : Nat),
      (∀ j, j < k → 50 ≤ (fetch (offIter off j)).length) →
      (fetch (offIter off k)).length < 50 →
      k < fuel →
      listAllAux fetch fuel off
        = some (pageSeq fetch off (k + 1), expectedReqs off (k + 1)) := by
  intro k
  induction k with
  | zero =>
    intro off fuel hfull hshort hfuel
    obtain ⟨f, rfl⟩ : ∃ f, fuel = f + 1 := ⟨fuel - 1, by omega⟩
    simp only [offIter] at hshort
    simp [listAllAux, hshort, pageSeq, expectedReqs]
  | succ k ih =>
    intro off fuel hfull hshort hfuel
    obtain ⟨f, rfl⟩ : ∃ f, fuel = f + 1 := ⟨fuel - 1, by omega⟩
    have h0 : 50 ≤ (fetch off).length := by
      simpa [offIter] using hfull 0 (by omega)
    have hrec := ih (nextOff off) f
      (fun j hj => hfull (j + 1) (by omega))
      hshort
      (by omega)
    simp only [listAllAux]
    rw [if_neg (by omega), hrec]
    rfl

/-- On wrapFetch the loop runs through every multiple of 50 below 2^32,
wraps to offset 4, and stops there after 85899347 calls in total. -/
theorem wrapFetch_run :
    listAll wrapFetch 85899348
      = some (pageSeq wrapFetch 0 85899347, expectedReqs 0 85899347) := by
  have hfull : ∀ j, j < 85899346 → 50 ≤ (wrapFetch (offIter 0 j)).length := by
    intro j hj
    rw [offIter_eq j 0 (by norm_num)]
    have hlt : 0 + 50 * j < 4294967296 := by omega
    rw [Nat.mod_eq_of_lt hlt]
    simp only [Nat.zero_add]
    have hne : ¬(50 * j = 4) := by omega
    simp [wrapFetch, hne]
  have hshort : (wrapFetch (offIter 0 85899346)).length < 50 := by
    rw [offIter_eq 85899346 0 (by norm_num)]
    norm_num [wrapFetch]
  exact listAllAux_run wrapFetch 85899346 0 85899348 hfull hshort (by norm_num)

/-- The request the loop makes right after the wrap carries offset 4, the
u32 value of 50 * 85899346. -/
theorem wrapFetch_offset :
    (expectedReqs 0 85899347).getD 85899346 (0, 0) = (50, 4) := by
  rw [expectedReqs_getD 0 85899347 85899346 (by norm_num)]
  rw [offIter_eq 85899346 0 (by norm_num)]

/-! ## Pages and collections

Embeds the data model of src/public/page/mod.rs (ids are u64) and the
response handling of its client methods, which use the blocking client
with `error_for_status()`. Serde limits recursion; the recursive
`children` field of Page is decoded with the serde_json default recursion
budget of 128.
-/

def u64Bound : Nat := 18446744073709551616

structure Visibility where
  user_ids : Option (List Nat)
  group_ids : Option (List Nat)
deriving DecidableEq, Repr

inductive Page where
  | mk (id : Option Nat) (name : Option String) (parent_id : Option Nat)
      (owner_id : Option Nat) (locked : Option Bool)
      (collection_ids : Option (List Nat)) (card_ids : Option (List Nat))
      (children : Option (List Page)) (visibility : Option Visibility)

structure Collection where
  id : Option Nat
  title : Option String
  description : Option String
  card_ids : Option (List Nat)
deriving DecidableEq, Repr

def decNatList : Json → Option (List Nat)
  | .arr xs => decodeJList (decNatLt u64Bound) xs
  | _ => none

def decodeVisibility : Json → Option Visibility
  | .obj fs => do
    let u ← decOptField decNatList fs "userIds"
    let g ← decOptField decNatList fs "groupIds"
    some ⟨u, g⟩
  | _ => none

def decodePageF : Nat → Json → Option Page
  | 0, _ => none
  | d+1, .obj fs => do
    let i ← decOptField (decNatLt u64Bound) fs "id"
    let n ← decOptField decStr fs "name"
    let pid ← decOptField (decNatLt u64Bound) fs "parentId"
    let oid ← decOptField (decNatLt u64Bound) fs "ownerId"
    let lk ← decOptField decBool fs "locked"
    let cols ← decOptField decNatList fs "collectionIds"
    let cards ← decOptField decNatList fs "cardIds"
    let ch ← decOptField
      (fun j => match j with
        | .arr xs => decodeJList (decodePageF d) xs
        | _ => none) fs "children"
    let vis ← decOptField decodeVisibility fs "visibility"
    some (.mk i n pid oid lk cols cards ch vis)
  | _+1, _ => none

def decodePageList : Json → Option (List Page)
  | .arr xs => decodeJList (decodePageF 128) xs
  | _ => none

def decodeAccountList : Json → Option (List Account)
  | .arr xs => decodeJList decodeAccount xs
  | _ => none

/-- Response handling of Client::get_pages in src/public/page/mod.rs. -/
def get_pages_handle (resp : Response) : Except ClientError (List Page) :=
  reqwestHandle decodePageList resp

/-- Response handling of Client::get_accounts in src/public/account/mod.rs. -/
def get_accounts_handle (resp : Response) : Except ClientError (List Account) :=
  surfHandle decodeAccountList resp

/-! ## Page collection update

Embeds PageCommand::UpdateCollection from src/page.rs: list the
collections of the page, linearly scan them keeping the last one whose id
equals the requested collection id, panic with the message
`Invalid Collection Id` when none matched, otherwise hand the match to the
editor and issue exactly one put_page_collection write addressed to the
requested collection id.
-/

def findStep (cid : Nat) (ret : Option Collection) (c : Collection) : Option Collection :=
  match c.id with
  | some i => if i = cid then some c else ret
  | none => ret

def findCollection (cs : List Collection) (cid : Nat) : Option Collection :=
  cs.foldl (findStep cid) none

/-- A put_page_collection request: the page id and collection id embedded
in the URL and the JSON body sent. -/
structure CollectionWrite where
  pageId : Nat
  collectionId : Nat
  body : Collection
deriving DecidableEq, Repr

inductive UpdateOutcome where
  | panicked (msg : String)
  | writes (reqs : List CollectionWrite)
deriving DecidableEq, Repr

def updateCollectionFlow (pageId cid : Nat) (cs : List Collection)
    (editF : Collection → Collection) : UpdateOutcome :=
  match findCollection cs cid with
  | none => .panicked "Invalid Collection Id"
  | some c => .writes [⟨pageId, cid, editF c⟩]

theorem foldl_findStep_none (cid : Nat) :
    ∀ (cs : List Collection) (acc : Option Collection),
      cs.foldl (findStep cid) acc = none ↔
        acc = none ∧ ∀ c ∈ cs, c.id ≠ some cid := by
  intro cs
  induction cs with
  | nil => simp
  | cons c cs ih =>
    intro acc
    simp only [List.foldl_cons, List.mem_cons]
    rw [ih]
    cases hc : c.id with
    | none =>
      simp only [findStep, hc]
      constructor
      · rintro ⟨h1, h2⟩
        exact ⟨h1, fun d hd => by
          rcases hd with rfl | hd
          · simp [hc]
          · exact h2 d hd⟩
      · rintro ⟨h1, h2⟩
        exact ⟨h1, fun d hd => h2 d (Or.inr hd)⟩
    | some i =>
      by_cases hi : i = cid
      · subst hi
        simp only [findStep, hc, if_pos rfl]
        constructor
        · rintro ⟨h1, -⟩
          exact absurd h1 (by simp)
        · rintro ⟨-, h2⟩
          exact absurd (h2 c (Or.inl rfl)) (by simp [hc])
      · simp only [findStep, hc, if_neg hi]
        constructor
        · rintro ⟨h1, h2⟩
          refine ⟨h1, fun d hd => ?_⟩
          rcases hd with rfl | hd
          · simp [hc, hi]
          · exact h2 d hd
        · rintro ⟨h1, h2⟩
          exact ⟨h1, fun d hd => h2 d (Or.inr hd)⟩

theorem findCollection_eq_none (cs : List Collection) (cid : Nat) :
    findCollection cs cid = none ↔ ∀ c ∈ cs, c.id ≠ some cid := by
  rw [findCollection, foldl_findStep_none]
  simp

/-! ## Account creation property seeding

Embeds AccountCommand::Create from src/account.rs. After fetching the
target AccountType, the command checks whether its templates map contains
the key `default`; if so it iterates over that template's properties
(unwrapping the properties list and each property's name and prompt, so a
missing one panics) and inserts name maps-to `TODO: ` ++ prompt into a
fresh property map, which replaces the properties of the fetched
AccountType; templates under any other key are ignored. The seeded
AccountType is stored into the account_type field of Account::template,
the result is handed to the interactive editor, and the edited object is
posted. HashMap get/contains_key/insert are modeled on association lists
by mapLookup, hasKey and mapInsert; a `none` result of the flow is the
panic, which happens before the editor runs and before any create request
is sent.
-/

def mapLookup (k : String) : List (String × α) → Option α
  | [] => none
  | kv :: m => if kv.1 = k then some kv.2 else mapLookup k m

def hasKey (k : String) : List (String × α) → Bool
  | [] => false
  | kv :: m => if kv.1 = k then true else hasKey k m

def mapInsert (m : List (String × String)) (k v : String) : List (String × String) :=
  if hasKey k m then m.map (fun kv => if kv.1 = k then (k, v) else kv)
  else m ++ [(k, v)]

def buildProps : List (String × String) → List Property → Option (List (String × String))
  | acc, [] => some acc
  | acc, p :: ps =>
    match p.name, p.prompt with
    | some n, some pr => buildProps (mapInsert acc n ("TODO: " ++ pr)) ps
    | _, _ => none

def accountCreateSeed (t : AccountType) : Option AccountType :=
  match t.templates with
  | some hm =>
    match mapLookup "default" hm with
    | some tpl =>
      match tpl.properties with
      | some ps => (buildProps [] ps).map (fun props => { t with properties := some props })
      | none => none
    | none => some t
  | none => some t

/-- The whole create flow after the AccountType fetch: `none` is the
panic; otherwise the pair of the object handed to the editor and the
edited object that is posted. -/
def accountCreateFlow (editF : Account → Account) (t : AccountType) :
    Option (Account × Account) :=
  (accountCreateSeed t).map (fun t2 =>
    let handed : Account := { Account.template with account_type := some t2 }
    (handed, editF handed))

theorem mapLookup_map_replace (k v : String) :
    ∀ m : List (String × String),
      mapLookup k (m.map (fun kv => if kv.1 = k then (k, v) else kv)) =
        if hasKey k m then some v else mapLookup k m := by
  intro m
  induction m with
  | nil => simp [mapLookup, hasKey]
  | cons kv m ih =>
    by_cases h : kv.1 = k
    · simp [mapLookup, hasKey, h]
    · simp [mapLookup, hasKey, h, ih]

theorem mapLookup_none_of_not_hasKey (k : String) :
    ∀ m : List (String × String), hasKey k m = false → mapLookup k m = none := by
  intro m
  induction m with
  | nil => simp [mapLookup]
  | cons kv m ih =>
    intro h
    by_cases hk : kv.1 = k
    · simp [hasKey, hk] at h
    · simp only [hasKey, if_neg hk] at h
      simp [mapLookup, hk, ih h]

theorem mapLookup_append_right (k : String) (l m : List (String × String))
    (h : mapLookup k m = none) : mapLookup k (m ++ l) = mapLookup k l := by
  induction m with
  | nil => simp
  | cons kv m ih =>
    by_cases hk : kv.1 = k
    · simp [mapLookup, hk] at h
    · simp only [mapLookup, if_neg hk] at h
      simp [mapLookup, hk, ih h]

theorem mapInsert_lookup_self (m : List (String × String)) (k v : String) :
    mapLookup k (mapInsert m k v) = some v := by
  rw [mapInsert]
  by_cases h : hasKey k m
  · rw [if_pos h, mapLookup_map_replace, if_pos h]
  · have hf : hasKey k m = false := by simpa using h
    rw [if_neg (by simp [hf]),
      mapLookup_append_right k _ m (mapLookup_none_of_not_hasKey k m hf)]
    simp [mapLookup]

theorem mapLookup_map_replace_other (k k2 v : String) (h : k2 ≠ k) :
    ∀ m : List (String × String),
      mapLookup k2 (m.map (fun kv => if kv.1 = k then (k, v) else kv)) =
        mapLookup k2 m := by
  intro m
  induction m with
  | nil => simp [mapLookup]
  | cons kv m ih =>
    by_cases hk : kv.1 = k
    · have h1 : ¬k = k2 := fun he => h he.symm
      have h2 : ¬kv.1 = k2 := by rw [hk]; exact h1
      simp [mapLookup, hk, h1, h2, ih]
    · simp only [List.map_cons, if_neg hk]
      by_cases hk2 : kv.1 = k2 <;> simp [mapLookup, hk2, ih]

theorem mapLookup_append_pair_other (k k2 v : String) (h : k2 ≠ k) :
    ∀ m : List (String × String),
      mapLookup k2 (m ++ [(k, v)]) = mapLookup k2 m := by
  intro m
  induction m with
  | nil =>
    have h1 : ¬k = k2 := fun he => h he.symm
    simp [mapLookup, h1]
  | cons kv m ih =>
    by_cases hk2 : kv.1 = k2 <;> simp [mapLookup, hk2, ih]

theorem mapInsert_lookup_other (m : List (String × String)) (k k2 v : String)
    (h : k2 ≠ k) : mapLookup k2 (mapInsert m k v) = mapLookup k2 m := by
  rw [mapInsert]
  split
  · exact mapLookup_map_replace_other k k2 v h m
  · exact mapLookup_append_pair_other k k2 v h m

theorem buildProps_isSome :
    ∀ (ps : List Property) (acc : List (String × String)),
      (buildProps acc ps).isSome ↔ ∀ p ∈ ps, p.name.isSome ∧ p.prompt.isSome := by
  intro ps
  induction ps with
  | nil => simp [buildProps]
  | cons p ps ih =>
    intro acc
    cases hn : p.name with
    | none => simp [buildProps, hn]
    | some n =>
      cases hp : p.prompt with
      | none => simp [buildProps, hn, hp]
      | some pr => simp [buildProps, hn, hp, ih]

theorem buildProps_lookup_frozen (n : String) :
    ∀ (ps : List Property) (acc m : List (String × String)),
      buildProps acc ps = some m → (∀ r ∈ ps, r.name ≠ some n) →
      mapLookup n m = mapLookup n acc := by
  intro ps
  induction ps with
  | nil => intro acc m h _; simp [buildProps] at h; rw [h]
  | cons r ps ih =>
    intro acc m h hall
    cases hn : r.name with
    | none => simp [buildProps, hn] at h
    | some rn =>
      cases hp : r.prompt with
      | none => simp [buildProps, hn, hp] at h
      | some rp =>
        rw [buildProps, hn, hp] at h
        have hne : n ≠ rn := by
          intro he
          exact hall r (List.mem_cons_self r ps) (by rw [hn, he])
        rw [ih _ _ h (fun q hq => hall q (List.mem_cons_of_mem r hq)),
          mapInsert_lookup_other _ _ _ _ hne]

theorem buildProps_lookup (n pr : String) :
    ∀ (ps : List Property) (acc m : List (String × String)) (p : Property),
      (ps.filterMap Property.name).Nodup →
      buildProps acc ps = some m → p ∈ ps → p.name = some n → p.prompt = some pr →
      mapLookup n m = some ("TODO: " ++ pr) := by
  intro ps
  induction ps with
  | nil => intro acc m p _ _ hmem; simp at hmem
  | cons q ps ih =>
    intro acc m p hnd h hmem hname hprompt
    cases hqn : q.name with
    | none => simp [buildProps, hqn] at h
    | some qn =>
      cases hqp : q.prompt with
      | none => simp [buildProps, hqn, hqp] at h
      | some qp =>
        rw [buildProps, hqn, hqp] at h
        have hnd2 : List.filterMap Property.name (q :: ps)
            = qn :: ps.filterMap Property.name := by
          simp [List.filterMap_cons, hqn]
        rw [hnd2] at hnd
        rcases List.mem_cons.mp hmem with rfl | hmem2
        · have hq : qn = n := by
            rw [hqn] at hname
            injection hname
          have hqp2 : qp = pr := by
            rw [hqp] at hprompt
            injection hprompt
          subst hq
          subst hqp2
          have hnotin : ∀ r ∈ ps, r.name ≠ some qn := by
            intro r hr he
            have : qn ∈ ps.filterMap Property.name :=
              List.mem_filterMap.mpr ⟨r, hr, he⟩
            exact (List.nodup_cons.mp hnd).1 this
          rw [buildProps_lookup_frozen qn ps _ _ h hnotin, mapInsert_lookup_self]
        · exact ih _ _ p (List.nodup_cons.mp hnd).2 h hmem2 hname hprompt

/-! ## Base64 and HTTP Basic authentication

The token endpoint request carries an Authorization header of the form
`Basic ` ++ base64(client_id ++ `:` ++ client_secret), built by the base64
crate over the UTF-8 bytes of that string. Standard base64 with padding is
implemented here over byte lists, together with a decoder, so that the
credentials carried by the header can be recovered exactly.
-/

def b64chars : List Char :=
  "ABCDEFGHIJKLMNOPQRSTUVWXYZabcdefghijklmnopqrstuvwxyz0123456789+/".toList

def b64char (n : Nat) : Char := b64chars.getD n 'A'

def b64index (c : Char) : Nat := b64chars.findIdx (fun x => x == c)

def base64encode : List Nat → List Char
  | [] => []
  | [a] => [b64char (a / 4), b64char (a % 4 * 16), '=', '=']
  | [a, b] => [b64char (a / 4), b64char (a % 4 * 16 + b / 16), b64char (b % 16 * 4), '=']
  | a :: b :: c :: rest =>
    b64char (a / 4) :: b64char (a % 4 * 16 + b / 16) ::
      b64char (b % 16 * 4 + c / 64) :: b64char (c % 64) :: base64encode rest

def sexToBytes : List Nat → List Nat
  | s1 :: s2 :: s3 :: s4 :: rest =>
    (s1 * 4 + s2 / 16) :: (s2 % 16 * 16 + s3 / 4) :: (s3 % 4 * 64 + s4) :: sexToBytes rest
  | [s1, s2] => [s1 * 4 + s2 / 16]
  | [s1, s2, s3] => [s1 * 4 + s2 / 16, s2 % 16 * 16 + s3 / 4]
  | _ => []

def base64decode (cs : List Char) : List Nat :=
  sexToBytes ((cs.filter (fun c => !(c == '='))).map b64index)

def utf8Bytes (s : String) : List Nat :=
  s.toUTF8.toList.map (fun b => b.toNat)

theorem b64index_b64char : ∀ n < 64, b64index (b64char n) = n := by decide

theorem b64char_ne_pad : ∀ n < 64, (b64char n == '=') = false := by decide

theorem base64decode_encode : ∀ bs : List Nat, (∀ x ∈ bs, x < 256) →
    base64decode (base64encode bs) = bs
  | [] => fun _ => rfl
  | [a] => by
    intro h
    have ha : a < 256 := h a (by simp)
    have h1 : (b64char (a / 4) == '=') = false := b64char_ne_pad _ (by omega)
    have h2 : (b64char (a % 4 * 16) == '=') = false := b64char_ne_pad _ (by omega)
    have e1 : b64index (b64char (a / 4)) = a / 4 := b64index_b64char _ (by omega)
    have e2 : b64index (b64char (a % 4 * 16)) = a % 4 * 16 := b64index_b64char _ (by omega)
    simp [base64encode, base64decode, List.filter, h1, h2, e1, e2, sexToBytes]
    omega
  | [a, b] => by
    intro h
    have ha : a < 256 := h a (by simp)
    have hb : b < 256 := h b (by simp)
    have h1 : (b64char (a / 4) == '=') = false := b64char_ne_pad _ (by omega)
    have h2 : (b64char (a % 4 * 16 + b / 16) == '=') = false := b64char_ne_pad _ (by omega)
    have h3 : (b64char (b % 16 * 4) == '=') = false := b64char_ne_pad _ (by omega)
    have e1 : b64index (b64char (a / 4)) = a / 4 := b64index_b64char _ (by omega)
    have e2 : b64index (b64char (a % 4 * 16 + b / 16)) = a % 4 * 16 + b / 16 :=
      b64index_b64char _ (by omega)
    have e3 : b64index (b64char (b % 16 * 4)) = b % 16 * 4 := b64index_b64char _ (by omega)
    simp [base64encode, base64decode, List.filter, h1, h2, h3, e1, e2, e3, sexToBytes]
    omega
  | a :: b :: c :: rest => by
    intro h
    have ha : a < 256 := h a (by simp)
    have hb : b < 256 := h b (by simp)
    have hc : c < 256 := h c (by simp)
    have ih := base64decode_encode rest (fun x hx => h x (by simp [hx]))
    have h1 : (b64char (a / 4) == '=') = false := b64char_ne_pad _ (by omega)
    have h2 : (b64char (a % 4 * 16 + b / 16) == '=') = false := b64char_ne_pad _ (by omega)
    have h3 : (b64char (b % 16 * 4 + c / 64) == '=') = false := b64char_ne_pad _ (by omega)
    have h4 : (b64char (c % 64) == '=') = false := b64char_ne_pad _ (by omega)
    have e1 : b64index (b64char (a / 4)) = a / 4 := b64index_b64char _ (by omega)
    have e2 : b64index (b64char (a % 4 * 16 + b / 16)) = a % 4 * 16 + b / 16 :=
      b64index_b64char _ (by omega)
    have e3 : b64index (b64char (b % 16 * 4 + c / 64)) = b % 16 * 4 + c / 64 :=
      b64index_b64char _ (by omega)
    have e4 : b64index (b64char (c % 64)) = c % 64 := b64index_b64char _ (by omega)
    have hrest : base64decode (base64encode rest) = rest := ih
    rw [base64decode] at hrest ⊢
    simp only [base64encode, List.filter_cons, h1, h2, h3, h4, Bool.not_false,
      List.map_cons, if_true, sexToBytes]
    rw [e1, e2, e3, e4]
    refine List.cons_eq_cons.mpr ⟨by omega, ?_⟩
    refine List.cons_eq_cons.mpr ⟨by omega, ?_⟩
    refine List.cons_eq_cons.mpr ⟨by omega, ?_⟩
    exact hrest

theorem utf8Bytes_lt (s : String) : ∀ x ∈ utf8Bytes s, x < 256 := by
  intro x hx
  simp only [utf8Bytes, List.mem_map] at hx
  obtain ⟨b, _, rfl⟩ := hx
  exact b.toNat_lt

/-! ## The token endpoint and request traces

Embeds Client::get_access_token from src/public/mod.rs: the client
configuration created by Client::new, the GET request it sends to the
token endpoint (client-credentials grant, Basic authentication), and the
handling of the response. On a success status the body is read as a JSON
value and the string under `access_token` is unwrapped (a missing or
non-string value panics); the result is `Bearer ` ++ token. On a
non-success status the body is decoded as a `PubAPIError`.
-/

structure ClientCfg where
  host : String
  client_id : String
  client_secret : String
deriving DecidableEq, Repr

structure Request where
  method : String
  url : String
  query : List (String × String)
  headers : List (String × String)
deriving DecidableEq, Repr

/-- The string client_id ++ `:` ++ client_secret built by push_str, push
and push_str in the source. -/
def basicAuthPayload (cfg : ClientCfg) : String :=
  cfg.client_id ++ ":" ++ cfg.client_secret

def basicAuthHeader (cfg : ClientCfg) : String :=
  "Basic " ++ String.mk (base64encode (utf8Bytes (basicAuthPayload cfg)))

def tokenRequest (cfg : ClientCfg) (scope : String) : Request :=
  { method := "GET", url := cfg.host ++ "/oauth/token",
    query := [("grant_type", "client_credentials"), ("scope", scope)],
    headers := [("Authorization", basicAuthHeader cfg)] }

inductive TokenOutcome where
  | bearer (s : String)
  | apiError (e : PubAPIError)
  | decodeFailure
  | panicked
deriving DecidableEq, Repr

def get_access_token_model (resp : Response) : TokenOutcome :=
  if 200 ≤ resp.status ∧ resp.status < 300 then
    match resp.body with
    | .obj fs =>
      match jLookup fs "access_token" with
      | some (.str t) => .bearer ("Bearer " ++ t)
      | _ => .panicked
    | _ => .panicked
  else
    match decodePubAPIError resp.body with
    | some e => .apiError e
    | none => .decodeFailure

/-! ## One token acquisition per client-method invocation

Every client method body begins with get_access_token for the fixed scope
of its resource family and then issues exactly one resource request with
the returned token in its Authorization header; the Client struct holds
only host and credentials, so nothing persists between calls. Each method
is modeled as the sequence of calls one invocation performs.
-/

inductive ApiCall where
  | token (scope : String)
  | http (req : Request)
deriving DecidableEq, Repr

def tokenCount (cs : List ApiCall) : Nat :=
  cs.countP (fun c => match c with | .token _ => true | .http _ => false)

/-- Query pairs for an optional limit and offset, present only when given,
as both the hand-built query vectors and the serde struct serializations
in the source produce. -/
def optQuery (limit offset : Option Nat) : List (String × String) :=
  (match limit with
   | some v => [("limit", toString v)]
   | none => []) ++
  (match offset with
   | some v => [("offset", toString v)]
   | none => [])

def get_datasets_calls (cfg : ClientCfg) (tok : String) (limit offset : Option Nat) :
    List ApiCall :=
  [.token "data",
   .http { method := "GET", url := cfg.host ++ "/v1/datasets",
           query := optQuery limit offset, headers := [("Authorization", tok)] }]

def get_streams_calls (cfg : ClientCfg) (tok : String) (limit offset : Option Nat) :
    List ApiCall :=
  [.token "data",
   .http { method := "GET", url := cfg.host ++ "/v1/streams",
           query := optQuery limit offset, headers := [("Authorization", tok)] }]

def get_accounts_calls (cfg : ClientCfg) (tok : String) (limit offset : Option Nat) :
    List ApiCall :=
  [.token "account",
   .http { method := "GET", url := cfg.host ++ "/v1/accounts",
           query := optQuery limit offset, headers := [("Authorization", tok)] }]

def get_users_calls (cfg : ClientCfg) (tok : String) (limit offset : Option Nat) :
    List ApiCall :=
  [.token "user",
   .http { method := "GET", url := cfg.host ++ "/v1/users",
           query := optQuery limit offset, headers := [("Authorization", tok)] }]

def get_groups_calls (cfg : ClientCfg) (tok : String) (limit offset : Option Nat) :
    List ApiCall :=
  [.token "user",
   .http { method := "GET", url := cfg.host ++ "/v1/groups",
           query := optQuery limit offset, headers := [("Authorization", tok)] }]

def get_pages_calls (cfg : ClientCfg) (tok : String) (limit offset : Option Nat) :
    List ApiCall :=
  [.token "dashboard",
   .http { method := "GET", url := cfg.host ++ "/v1/pages",
           query := optQuery limit offset, headers := [("Authorization", tok)] }]

def get_integrations_calls (cfg : ClientCfg) (tok : String) : List ApiCall :=
  [.token "buzz",
   .http { method := "GET", url := cfg.host ++ "/v1/buzz/integrations",
           query := [], headers := [("Authorization", tok)] }]

def get_projects_calls (cfg : ClientCfg) (tok : String) (limit offset : Option Nat) :
    List ApiCall :=
  [.token "workflow",
   .http { method := "GET", url := cfg.host ++ "/v1/projects/",
           query := optQuery limit offset, headers := [("Authorization", tok)] }]

def get_entries_calls (cfg : ClientCfg) (tok : String) (user_id : Option Nat)
    (start : Nat) (end_ limit offset : Option Nat) : List ApiCall :=
  [.token "audit",
   .http { method := "GET", url := cfg.host ++ "/v1/audit",
           query :=
             (match user_id with
              | some v => [("user_id", toString v)]
              | none => []) ++
             [("start", toString start)] ++
             (match end_ with
              | some v => [("end", toString v)]
              | none => []) ++
             optQuery limit offset,
           headers := [("Authorization", tok)] }]

/-! ## Concrete fixtures used by witnesses -/

/-- The prompt entry reachable through the account object handed to the
editor: the value under the given name in the property map of its seeded
account type. -/
def seededPrompt (a : Account) (n : String) : Option String :=
  match a.account_type with
  | some t =>
    match t.properties with
    | some props => mapLookup n props
    | none => none
  | none => none

/-- The default template listing one property with name `user` and prompt
`Enter user`. -/
def seedUserTpl : AccountTemplate :=
  { name := none, title := none, content_type := none, method := none,
    properties := some [{ name := some "user", prompt := some "Enter user",
                          regex := none, required := none }] }

/-- A template listing one property whose prompt is missing. -/
def seedBadTpl : AccountTemplate :=
  { name := none, title := none, content_type := none, method := none,
    properties := some [{ name := some "user", prompt := none,
                          regex := none, required := none }] }

/-- A template with no properties list. -/
def seedOtherTpl : AccountTemplate :=
  { name := none, title := none, content_type := none, method := none,
    properties := none }

/-- An AccountType whose default template is seedUserTpl. -/
def seedUserType : AccountType :=
  { id := some "t1", name := none, properties := none,
    templates := some [("default", seedUserTpl)] }

/-- An AccountType whose default template lists a property with no
prompt. -/
def seedBadType : AccountType :=
  { id := some "t2", name := none, properties := none,
    templates := some [("default", seedBadTpl)] }

/-- An AccountType whose only template sits under a key other than
`default`. -/
def seedOtherType : AccountType :=
  { id := some "t3", name := none, properties := none,
    templates := some [("other", seedOtherTpl)] }

/-- The account object the create flow hands to the editor for
seedUserType: the template account carrying the seeded AccountType. -/
def seededUserAccount : Account :=
  { Account.template with
    account_type :=
      some { seedUserType with properties := some [("user", "TODO: Enter user")] } }

/-- The account object the create flow hands to the editor for
seedOtherType, whose AccountType is left untouched. -/
def seededOtherAccount : Account :=
  { Account.template with account_type := some seedOtherType }

theorem tokenCount_flatten_of_one {ι : Type} (f : ι → List ApiCall)
    (h : ∀ i, tokenCount (f i) = 1) :
    ∀ l : List ι, tokenCount ((l.map f).flatten) = l.length := by
  intro l
  induction l with
  | nil => rfl
  | cons x l ih =>
    have hx := h x
    simp only [List.map_cons, List.flatten_cons, List.length_cons]
    simp only [tokenCount, List.countP_append] at hx ih ⊢
    omega

/-! ## The claims -/

/-- C1 counterexample: the loop offset is a u32, so on a server returning
85899346 consecutive full pages the next request is issued at offset
4 = (50 * 85899346) mod 2^32 rather than at 50 * 85899346 = 4294967300;
the offsets are not 0, 50, 100, and so on indefinitely as the claim
states. -/
theorem claim_listAll_pagination_counterexample :
    listAll wrapFetch 85899348
      = some (pageSeq wrapFetch 0 85899347, expectedReqs 0 85899347) ∧
    (expectedReqs 0 85899347).getD 85899346 (0, 0) ≠ (50, 50 * 85899346) := by
  refine ⟨wrapFetch_run, ?_⟩
  rw [wrapFetch_offset]
  decide

/-- C1 amended: every list-all pagination loop requests pages of fixed
size 50 at offsets advancing by 50 in u32 wrapping arithmetic, so the i-th
offset is (50 * i) mod 2^32 and equals 50 * i whenever that value fits in
u32; every returned page is appended to one aggregate in arrival order and
the loop stops after the first page whose length is strictly below 50; for
a stub endpoint serving pages of sizes 50, 50, 23 the aggregate is the 123
elements in order over exactly 3 calls, and for sizes 50, 50 a third call
returning the empty page is made and the aggregate has the 100 elements
over exactly 3 calls. -/
theorem claim_listAll_pagination :
    (∀ (α : Type) (fetch : Nat → List α) (fuel : Nat) (agg : List α)
        (reqs : List (Nat × Nat)),
      listAll fetch fuel = some (agg, reqs) →
      reqs = expectedReqs 0 reqs.length ∧
      (∀ i, i < reqs.length →
        reqs.getD i (0, 0) = (50, (50 * i) % 4294967296)) ∧
      (∀ i, i < reqs.length → 50 * i < 4294967296 →
        reqs.getD i (0, 0) = (50, 50 * i)) ∧
      agg = pageSeq fetch 0 reqs.length ∧
      0 < reqs.length ∧
      (∀ i, i + 1 < reqs.length → 50 ≤ (fetch (offIter 0 i)).length) ∧
      (fetch (offIter 0 (reqs.length - 1))).length < 50) ∧
    listAll (stubFetch 123) 10
      = some (List.range 123, [(50, 0), (50, 50), (50, 100)]) ∧
    listAll (stubFetch 100) 10
      = some (List.range 100, [(50, 0), (50, 50), (50, 100)]) ∧
    stubFetch 100 100 = [] := by
  refine ⟨?_, by decide, by decide, by decide⟩
  intro α fetch fuel agg reqs h
  obtain ⟨h1, h2, h3, h4, h5⟩ := listAllAux_spec fetch fuel 0 agg reqs h
  have hmod : ∀ i, i < reqs.length →
      reqs.getD i (0, 0) = (50, (50 * i) % 4294967296) := by
    intro i hi
    conv_lhs => rw [h1]
    rw [expectedReqs_getD 0 reqs.length i hi, offIter_eq i 0 (by norm_num)]
    simp
  refine ⟨h1, hmod, ?_, h2, h3, h4, h5⟩
  intro i hi hfit
  rw [hmod i hi, Nat.mod_eq_of_lt hfit]

/-- Witness for the amended C1 at the stub endpoint of total size 123. -/
theorem claim_listAll_pagination_witness :
    listAll (stubFetch 123) 10
      = some (List.range 123, [(50, 0), (50, 50), (50, 100)]) ∧
    [(50, 0), (50, 50), (50, 100)]
      = expectedReqs 0 ([(50, 0), (50, 50), (50, 100)] : List (Nat × Nat)).length ∧
    List.range 123 = pageSeq (stubFetch 123) 0 3 ∧
    ([(50, 0), (50, 50), (50, 100)] : List (Nat × Nat)).getD 2 (0, 0)
      = (50, 50 * 2) := by
  have h := claim_listAll_pagination
  have h1 := h.2.1
  have h2 := h.1 Nat (stubFetch 123) 10 (List.range 123)
    [(50, 0), (50, 50), (50, 100)] h1
  refine ⟨h1, h2.1, by simpa using h2.2.2.2.1, ?_⟩
  exact h2.2.2.1 2 (by decide) (by norm_num)

/-- C9 counterexample: on the same wrapping run the request at index
85899346 carries offset 4, the u32 value of 50 * 85899346, refuting that
the i-th offset always equals 50 times i. -/
theorem claim_listAll_offset_arith_counterexample :
    listAll wrapFetch 85899348
      = some (pageSeq wrapFetch 0 85899347, expectedReqs 0 85899347) ∧
    (expectedReqs 0 85899347).getD 85899346 (0, 0) = (50, 4) ∧
    (50, 4) ≠ ((50, 50 * 85899346) : Nat × Nat) := by
  refine ⟨wrapFetch_run, wrapFetch_offset, by decide⟩

/-- C9 amended: the offset of the i-th pagination request, counting from
zero, is (50 * i) mod 2^32 — the u32 offset is advanced by the constant 50
with wrapping arithmetic after each page regardless of the page length —
and equals 50 * i whenever that value fits in u32; a first page of 60
elements is still appended whole while the second request is sent at
offset 50. -/
theorem claim_listAll_offset_arith :
    (∀ (α : Type) (fetch : Nat → List α) (fuel : Nat) (agg : List α)
        (reqs : List (Nat × Nat)),
      listAll fetch fuel = some (agg, reqs) →
      ∀ i, i < reqs.length →
        reqs.getD i (0, 0) = (50, (50 * i) % 4294967296) ∧
        (50 * i < 4294967296 → reqs.getD i (0, 0) = (50, 50 * i))) ∧
    listAll overFetch 10 = some (List.range 60 ++ [777], [(50, 0), (50, 50)]) := by
  refine ⟨?_, by decide⟩
  intro α fetch fuel agg reqs h i hi
  have h1 := (listAllAux_spec fetch fuel 0 agg reqs h).1
  have hmod : reqs.getD i (0, 0) = (50, (50 * i) % 4294967296) := by
    conv_lhs => rw [h1]
    rw [expectedReqs_getD 0 reqs.length i hi, offIter_eq i 0 (by norm_num)]
    simp
  exact ⟨hmod, fun hfit => by rw [hmod, Nat.mod_eq_of_lt hfit]⟩

/-- Witness for the amended C9 at the endpoint with an over-long first
page. -/
theorem claim_listAll_offset_arith_witness :
    listAll overFetch 10 = some (List.range 60 ++ [777], [(50, 0), (50, 50)]) ∧
    ([(50, 0), (50, 50)] : List (Nat × Nat)).getD 1 (0, 0) = (50, 50 * 1) := by
  have h := claim_listAll_offset_arith
  refine ⟨h.2, ?_⟩
  exact (h.1 Nat overFetch 10 (List.range 60 ++ [777]) [(50, 0), (50, 50)]
    h.2 1 (by decide)).2 (by norm_num)

/-- C2 counterexample: a page-module method on HTTP 403 with the body
carrying status 403 and message `Forbidden` fails via error_for_status
with a status-only error that is not the decoded structured error and
exposes no message. -/
theorem claim_error_mapping_counterexample :
    get_pages_handle
        ⟨403, .obj [("status", .num 403), ("message", .str "Forbidden")]⟩
      = .error (.httpStatus 403) ∧
    errMessage (.httpStatus 403) = none ∧
    ClientError.httpStatus 403 ≠ .api ⟨403, none, "Forbidden", none, none⟩ := by
  refine ⟨rfl, rfl, by decide⟩

/-- C2 amended: every surf-based client method, on any non-success status
whose body decodes as the structured error, returns no result and fails
with exactly that decoded error; the accounts list method on 403 with body
status 403 and message `Forbidden` yields the structured error with
status 403 and message `Forbidden`. The page-module methods are the
exception recorded by the counterexample. -/
theorem claim_error_mapping_amended :
    (∀ (α : Type) (dec : Json → Option α) (resp : Response) (e : PubAPIError),
      ¬(200 ≤ resp.status ∧ resp.status < 300) →
      decodePubAPIError resp.body = some e →
      surfHandle dec resp = .error (.api e) ∧
      ∀ a : α, surfHandle dec resp ≠ .ok a) ∧
    get_accounts_handle
        ⟨403, .obj [("status", .num 403), ("message", .str "Forbidden")]⟩
      = .error (.api ⟨403, none, "Forbidden", none, none⟩) := by
  refine ⟨?_, rfl⟩
  intro α dec resp e hns hdec
  have he : surfHandle dec resp = .error (.api e) := by
    rw [surfHandle, if_neg hns, hdec]
  exact ⟨he, fun a hcontra => by rw [he] at hcontra; exact Except.noConfusion hcontra⟩

/-- Witness for the amended C2 at a 500 response. -/
theorem claim_error_mapping_witness :
    surfHandle decodeAccountList
        ⟨500, .obj [("status", .num 500), ("message", .str "err")]⟩
      = .error (.api ⟨500, none, "err", none, none⟩) :=
  (claim_error_mapping_amended.1 (List Account) decodeAccountList
    ⟨500, .obj [("status", .num 500), ("message", .str "err")]⟩
    ⟨500, none, "err", none, none⟩ (by decide) (by decide)).1

/-- C3 counterexample: the Owner record of the dataset model has a
non-optional id under the serde default attribute, so an id absent from
the payload deserializes to 0, the same value an explicit id 0 produces;
absence is not represented for this field. -/
theorem claim_roundtrip_counterexample :
    decodeOwner (.obj []) = some ⟨0, none⟩ ∧
    decodeOwner (.obj [("id", .num 0)]) = some ⟨0, none⟩ := by
  exact ⟨by decide, by decide⟩

/-- C3 amended: serializing then deserializing an Account yields the same
value, an empty payload deserializes to the all-unset Account, and the
same round trip holds for Owner within the u32 range of its id; but the
Owner id defaults to 0 when absent, indistinguishable from an explicit 0,
so not every absent field decodes to an unset representation. -/
theorem claim_roundtrip_amended :
    (∀ a : Account, decodeAccount (encodeAccount a) = some a) ∧
    decodeAccount (.obj []) = some Account.new ∧
    (∀ o : Owner, o.id < 4294967296 → decodeOwner (encodeOwner o) = some o) ∧
    decodeOwner (.obj []) = decodeOwner (.obj [("id", .num 0)]) := by
  exact ⟨decodeAccount_encode, by decide, fun o h => decodeOwner_encode o h, by decide⟩

/-- Witness for the amended C3 at concrete values. -/
theorem claim_roundtrip_witness :
    decodeAccount (encodeAccount Account.template) = some Account.template ∧
    decodeOwner (encodeOwner ⟨7, some "me"⟩) = some ⟨7, some "me"⟩ := by
  have h := claim_roundtrip_amended
  exact ⟨h.1 Account.template, h.2.2.1 ⟨7, some "me"⟩ (by decide)⟩

/-- C4: the page-collection-update flow scans the listed collections for
the requested id; with no match it panics with `Invalid Collection Id`
and issues no write, and with a match it issues exactly one write
addressed to the requested collection id. -/
theorem claim_update_collection :
    (∀ (pageId cid : Nat) (cs : List Collection) (editF : Collection → Collection),
      (∀ c ∈ cs, c.id ≠ some cid) →
      updateCollectionFlow pageId cid cs editF = .panicked "Invalid Collection Id") ∧
    (∀ (pageId cid : Nat) (cs : List Collection) (editF : Collection → Collection),
      (∃ c ∈ cs, c.id = some cid) →
      ∃ c : Collection,
        updateCollectionFlow pageId cid cs editF = .writes [⟨pageId, cid, c⟩]) := by
  constructor
  · intro pageId cid cs editF h
    rw [updateCollectionFlow, (findCollection_eq_none cs cid).mpr h]
  · intro pageId cid cs editF h
    cases hf : findCollection cs cid with
    | none =>
      obtain ⟨c, hc, hid⟩ := h
      exact absurd hid ((findCollection_eq_none cs cid).mp hf c hc)
    | some c =>
      exact ⟨editF c, by rw [updateCollectionFlow, hf]⟩

/-- Witness for C4 on a page with collections of ids 1 and 2. -/
theorem claim_update_collection_witness :
    updateCollectionFlow 9 3
        [⟨some 1, none, none, none⟩, ⟨some 2, none, none, none⟩] id
      = .panicked "Invalid Collection Id" ∧
    ∃ c : Collection,
      updateCollectionFlow 9 2
          [⟨some 1, none, none, none⟩, ⟨some 2, none, none, none⟩] id
        = .writes [⟨9, 2, c⟩] := by
  have h := claim_update_collection
  exact ⟨h.1 9 3 [⟨some 1, none, none, none⟩, ⟨some 2, none, none, none⟩] id
      (by decide),
    h.2 9 2 [⟨some 1, none, none, none⟩, ⟨some 2, none, none, none⟩] id
      ⟨⟨some 2, none, none, none⟩, by decide, by decide⟩⟩

/-- C5: after fetching the AccountType, when a template is keyed `default`
each property it lists is turned into the placeholder `TODO: ` ++ prompt
under its name in the property map of the object handed to the editor,
which is then what gets edited and posted; for a default template listing
name `user` with prompt `Enter user`, the handed object carries the entry
user maps-to `TODO: Enter user`. -/
theorem claim_account_seeding :
    (∀ (t : AccountType) (hm : List (String × AccountTemplate))
        (tpl : AccountTemplate) (ps : List Property)
        (editF : Account → Account) (handed posted : Account)
        (p : Property) (n pr : String),
      t.templates = some hm →
      mapLookup "default" hm = some tpl →
      tpl.properties = some ps →
      (ps.filterMap Property.name).Nodup →
      accountCreateFlow editF t = some (handed, posted) →
      p ∈ ps → p.name = some n → p.prompt = some pr →
      seededPrompt handed n = some ("TODO: " ++ pr) ∧ posted = editF handed) ∧
    (accountCreateFlow id seedUserType).map Prod.fst = some seededUserAccount := by
  refine ⟨?_, by decide⟩
  intro t hm tpl ps editF handed posted p n pr ht hd hp hnd hflow hmem hname hprompt
  simp only [accountCreateFlow, accountCreateSeed, ht, hd, hp] at hflow
  cases hb : buildProps [] ps with
  | none => rw [hb] at hflow; simp at hflow
  | some m =>
    rw [hb] at hflow
    simp only [Option.map_some, Option.map, Option.some.injEq, Prod.mk.injEq] at hflow
    obtain ⟨hh, hpost⟩ := hflow
    have hlook := buildProps_lookup n pr ps [] m p hnd hb hmem hname hprompt
    constructor
    · rw [← hh]
      simp only [seededPrompt]
      exact hlook
    · rw [← hpost, ← hh]

/-- Witness for C5 at the concrete default template. -/
theorem claim_account_seeding_witness :
    seededPrompt seededUserAccount "user" = some ("TODO: " ++ "Enter user") := by
  have h := claim_account_seeding
  have hflow : accountCreateFlow id seedUserType
      = some (seededUserAccount, seededUserAccount) := by
    decide
  exact (h.1 seedUserType [("default", seedUserTpl)] seedUserTpl
    [{ name := some "user", prompt := some "Enter user",
       regex := none, required := none }]
    id _ _
    { name := some "user", prompt := some "Enter user",
      regex := none, required := none }
    "user" "Enter user"
    rfl rfl rfl (by decide) hflow (by decide) rfl rfl).1

/-- C10: when the fetched AccountType holds a template under the key
`default`, the seeding completes exactly when the properties list is
present and every listed property has both a name and a prompt; otherwise
the flow panics before the editor runs and before any create request, and
templates under other keys are ignored with no seeding. -/
theorem claim_seed_panics :
    (∀ (t : AccountType) (hm : List (String × AccountTemplate))
        (tpl : AccountTemplate) (editF : Account → Account),
      t.templates = some hm →
      mapLookup "default" hm = some tpl →
      ((accountCreateFlow editF t).isSome ↔
        tpl.properties.isSome ∧
          ∀ p ∈ tpl.properties.getD [], p.name.isSome ∧ p.prompt.isSome)) ∧
    (∀ (t : AccountType) (hm : List (String × AccountTemplate))
        (editF : Account → Account),
      t.templates = some hm →
      mapLookup "default" hm = none →
      accountCreateFlow editF t
        = some ({ Account.template with account_type := some t },
            editF { Account.template with account_type := some t })) := by
  constructor
  · intro t hm tpl editF ht hd
    simp only [accountCreateFlow, accountCreateSeed, ht, hd]
    cases hp : tpl.properties with
    | none => simp [hp]
    | some ps =>
      have hiff := buildProps_isSome ps []
      cases hb : buildProps [] ps with
      | none =>
        rw [hb] at hiff
        simp only [Option.isSome_none, Bool.false_eq_true, false_iff] at hiff
        simp [hp, hb, hiff]
      | some m =>
        rw [hb] at hiff
        simp only [Option.isSome_some, true_iff] at hiff
        simpa [hp, hb] using hiff
  · intro t hm editF ht hd
    simp only [accountCreateFlow, accountCreateSeed, ht, hd]
    rfl

/-- Witness for C10: a default template with a promptless property makes
the flow panic, and a template under another key leaves the AccountType
untouched. -/
theorem claim_seed_panics_witness :
    accountCreateFlow id seedBadType = none ∧
    accountCreateFlow id seedOtherType
      = some (seededOtherAccount, seededOtherAccount) := by
  have h := claim_seed_panics
  constructor
  · have h1 := h.1 seedBadType [("default", seedBadTpl)] seedBadTpl id rfl rfl
    have hr : ¬(seedBadTpl.properties.isSome ∧
        ∀ p ∈ seedBadTpl.properties.getD [], p.name.isSome ∧ p.prompt.isSome) := by
      decide
    exact Option.not_isSome_iff_eq_none.mp (fun hs => hr (h1.mp hs))
  · exact h.2 seedOtherType [("other", seedOtherTpl)] id rfl rfl

/-- C6: the token call is a GET on the oauth token path with the
client-credentials grant and the requested scope in the query and Basic
authentication whose payload decodes back exactly to client_id `:`
client_secret; a success response with an access_token string yields
exactly `Bearer ` ++ token, and a non-success response decodes its body
into the shared structured error and fails with it. -/
theorem claim_access_token :
    (∀ (cfg : ClientCfg) (scope : String),
      (tokenRequest cfg scope).method = "GET" ∧
      (tokenRequest cfg scope).url = cfg.host ++ "/oauth/token" ∧
      (tokenRequest cfg scope).query
        = [("grant_type", "client_credentials"), ("scope", scope)] ∧
      ∃ s : String,
        (tokenRequest cfg scope).headers = [("Authorization", "Basic " ++ s)] ∧
        base64decode s.toList
          = utf8Bytes (cfg.client_id ++ ":" ++ cfg.client_secret)) ∧
    (∀ (resp : Response) (fs : List (String × Json)) (t : String),
      200 ≤ resp.status ∧ resp.status < 300 →
      resp.body = .obj fs →
      jLookup fs "access_token" = some (.str t) →
      get_access_token_model resp = .bearer ("Bearer " ++ t)) ∧
    (∀ (resp : Response) (e : PubAPIError),
      ¬(200 ≤ resp.status ∧ resp.status < 300) →
      decodePubAPIError resp.body = some e →
      get_access_token_model resp = .apiError e) := by
  refine ⟨?_, ?_, ?_⟩
  · intro cfg scope
    refine ⟨rfl, rfl, rfl,
      String.mk (base64encode (utf8Bytes (basicAuthPayload cfg))), rfl, ?_⟩
    have hlt := utf8Bytes_lt (basicAuthPayload cfg)
    exact base64decode_encode (utf8Bytes (basicAuthPayload cfg)) hlt
  · intro resp fs t hs hb hl
    simp only [get_access_token_model, if_pos hs, hb, hl]
  · intro resp e hns hdec
    rw [get_access_token_model, if_neg hns, hdec]

/-- Witness for C6 at concrete token responses. -/
theorem claim_access_token_witness :
    get_access_token_model ⟨200, .obj [("access_token", .str "abc123")]⟩
      = .bearer ("Bearer " ++ "abc123") ∧
    get_access_token_model ⟨401, .obj [("status", .num 401), ("message", .str "bad")]⟩
      = .apiError ⟨401, none, "bad", none, none⟩ := by
  have h := claim_access_token
  exact ⟨h.2.1 ⟨200, .obj [("access_token", .str "abc123")]⟩
      [("access_token", .str "abc123")] "abc123" (by decide) rfl rfl,
    h.2.2 ⟨401, .obj [("status", .num 401), ("message", .str "bad")]⟩
      ⟨401, none, "bad", none, none⟩ (by decide) (by decide)⟩

/-- C7: each modeled client method, one per resource family, begins its
invocation with a token acquisition for the fixed scope of that family,
performs exactly one token acquisition per invocation, and a sequence of n
invocations performs n token acquisitions, none reused. -/
theorem claim_fresh_token_per_call :
    (∀ (cfg : ClientCfg) (tok : String) (limit offset : Option Nat),
      (get_datasets_calls cfg tok limit offset).head? = some (.token "data") ∧
      tokenCount (get_datasets_calls cfg tok limit offset) = 1 ∧
      (get_streams_calls cfg tok limit offset).head? = some (.token "data") ∧
      tokenCount (get_streams_calls cfg tok limit offset) = 1 ∧
      (get_accounts_calls cfg tok limit offset).head? = some (.token "account") ∧
      tokenCount (get_accounts_calls cfg tok limit offset) = 1 ∧
      (get_users_calls cfg tok limit offset).head? = some (.token "user") ∧
      tokenCount (get_users_calls cfg tok limit offset) = 1 ∧
      (get_groups_calls cfg tok limit offset).head? = some (.token "user") ∧
      tokenCount (get_groups_calls cfg tok limit offset) = 1 ∧
      (get_pages_calls cfg tok limit offset).head? = some (.token "dashboard") ∧
      tokenCount (get_pages_calls cfg tok limit offset) = 1 ∧
      (get_projects_calls cfg tok limit offset).head? = some (.token "workflow") ∧
      tokenCount (get_projects_calls cfg tok limit offset) = 1) ∧
    (∀ (cfg : ClientCfg) (tok : String),
      (get_integrations_calls cfg tok).head? = some (.token "buzz") ∧
      tokenCount (get_integrations_calls cfg tok) = 1) ∧
    (∀ (cfg : ClientCfg) (tok : String) (user_id : Option Nat) (start : Nat)
        (end_ limit offset : Option Nat),
      (get_entries_calls cfg tok user_id start end_ limit offset).head?
        = some (.token "audit") ∧
      tokenCount (get_entries_calls cfg tok user_id start end_ limit offset) = 1) ∧
    (∀ (cfg : ClientCfg) (tok : String) (invocs : List (Option Nat × Option Nat)),
      tokenCount
          ((invocs.map (fun a => get_datasets_calls cfg tok a.1 a.2)).flatten)
        = invocs.length) := by
  refine ⟨?_, ?_, ?_, ?_⟩
  · intro cfg tok limit offset
    exact ⟨rfl, rfl, rfl, rfl, rfl, rfl, rfl, rfl, rfl, rfl, rfl, rfl, rfl, rfl⟩
  · intro cfg tok
    exact ⟨rfl, rfl⟩
  · intro cfg tok user_id start end_ limit offset
    exact ⟨rfl, rfl⟩
  · intro cfg tok invocs
    exact tokenCount_flatten_of_one
      (fun a => get_datasets_calls cfg tok a.1 a.2) (fun _ => rfl) invocs

/-- C8 counterexample: a non-success response whose body is not the
structured error fails with the bare serde decode error, which exposes no
HTTP status at all, so the original status 403 is not wrapped or chained. -/
theorem claim_decode_failure_counterexample :
    get_accounts_handle ⟨403, .str "not json"⟩ = .error .decode ∧
    errStatus .decode = none ∧
    get_access_token_model ⟨403, .str "not json"⟩ = .decodeFailure := by
  exact ⟨rfl, rfl, rfl⟩

/-- C8 amended: on a non-success response whose body fails to decode as
the structured error, the operation fails with a decode-failure error
distinct from every structured API error; however that error does not
wrap or chain the original HTTP status, which is lost. -/
theorem claim_decode_failure_amended :
    (∀ (α : Type) (dec : Json → Option α) (resp : Response),
      ¬(200 ≤ resp.status ∧ resp.status < 300) →
      decodePubAPIError resp.body = none →
      surfHandle dec resp = .error .decode ∧
      (∀ e : PubAPIError, ClientError.decode ≠ .api e) ∧
      errStatus .decode = none) ∧
    get_accounts_handle ⟨403, .str "oops"⟩ = .error .decode := by
  refine ⟨?_, rfl⟩
  intro α dec resp hns hdec
  refine ⟨?_, fun e h => ClientError.noConfusion h, rfl⟩
  rw [surfHandle, if_neg hns, hdec]

/-- Witness for the amended C8 at a 502 response with a numeric body. -/
theorem claim_decode_failure_witness :
    surfHandle decodeAccountList ⟨502, .num 3⟩ = .error .decode :=
  (claim_decode_failure_amended.1 (List Account) decodeAccountList
    ⟨502, .num 3⟩ (by decide) (by decide)).1

end Domo
